import Mathlib

/-!
Verification of the Cadence testing-framework API described in
`src/content/testing-framework.mdx`: the `Matcher` combinator algebra,
the `Blockchain` facade over a `BlockchainBackend`, and the result
structures `ScriptResult` / `TransactionResult`.

The facade (`Blockchain`) and the `Matcher` struct are embedded directly
from the Cadence code shown in the document.  The backend behind
`Test.newEmulatorBlockchain` is external to the repository (only the
`BlockchainBackend` interface appears in the document), so its behaviour
is modelled from the specification where a claim depends on it; such
definitions carry a doc comment starting with `Modelled from the spec:`.
-/

namespace CadenceTest

/-- Cadence addresses, modelled as natural numbers. -/
abbrev Address := Nat

/-- Declared (static) types of the modelled Cadence value universe. -/
inductive CType where
  | int
  | int64
  | uint64
  | string
  | bool
  | address
deriving DecidableEq, Repr

/-- A modelled universe of Cadence `AnyStruct` values: a value carries its
declared type (the constructor) together with its payload. -/
inductive CValue where
  | int (n : Int)
  | int64 (n : Int)
  | uint64 (n : Nat)
  | string (s : String)
  | bool (b : Bool)
  | address (a : Address)
deriving DecidableEq, Repr

/-- The declared type of a value. -/
def CValue.declaredType : CValue → CType
  | .int _ => .int
  | .int64 _ => .int64
  | .uint64 _ => .uint64
  | .string _ => .string
  | .bool _ => .bool
  | .address _ => .address

/-- The underlying numeric representation of a value, when it has one. -/
def CValue.numericValue : CValue → Option Int
  | .int n => some n
  | .int64 n => some n
  | .uint64 n => some (Int.ofNat n)
  | _ => none

/-- Modelled from the spec: the typed structural equality used by
`Test.assertEqual` (the `Test` contract built-in is not part of the
repository).  Two values are equal only when both their declared types
and their payloads coincide. -/
def cadenceEq : CValue → CValue → Bool
  | .int a, .int b => a == b
  | .int64 a, .int64 b => a == b
  | .uint64 a, .uint64 b => a == b
  | .string a, .string b => a == b
  | .bool a, .bool b => a == b
  | .address a, .address b => a == b
  | _, _ => false

/-- Modelled from the spec: `Test.assertEqual` fails the test-case exactly
when the two given values are not equal as typed values. -/
def assertEqualFails (expected actual : CValue) : Bool :=
  !(cadenceEq expected actual)

/-- `Matcher` from the document: a wrapper around a one-argument boolean
test function over `AnyStruct`. -/
structure Matcher where
  test : CValue → Bool

/-- `Matcher.and` from the document: succeeds if this and the given
matcher succeed. -/
def Matcher.and (self other : Matcher) : Matcher :=
  ⟨fun value => self.test value && other.test value⟩

/-- `Matcher.or` from the document: succeeds if this or the given matcher
succeeds. -/
def Matcher.or (self other : Matcher) : Matcher :=
  ⟨fun value => self.test value || other.test value⟩

/-- An instrumented matcher: the test predicate is paired with an
identifier so that invocations of the test function can be observed. -/
structure MatcherI where
  id : Nat
  pred : CValue → Bool

/-- The Cadence expression `self.test(value) || other.test(value)` inside
`Matcher.or`, with the short-circuit evaluation that Cadence gives `||` made
explicit: the second test function is invoked only when the first one
returns false.  The second component lists the identifiers of the test
functions that were invoked, in order. -/
def MatcherI.orRun (self other : MatcherI) (value : CValue) : Bool × List Nat :=
  if self.pred value then (true, [self.id])
  else (other.pred value, [self.id, other.id])

/-- Claim C3: for all matchers m1, m2 and every value v, the combined
matcher `m1.and(m2)` satisfies `m1.and(m2).test(v) = (m1.test(v) && m2.test(v))`. -/
theorem matcher_and_conjunction (m1 m2 : Matcher) (v : CValue) :
    (m1.and m2).test v = (m1.test v && m2.test v) := rfl

/-- Claim C4: `m1.or(m2).test(v) = (m1.test(v) || m2.test(v))`, the
instrumented run agrees with that disjunction, and when the first
matcher test returns true the test function of the second matcher is not
invoked. -/
theorem matcher_or_disjunction_shortcircuit :
    (∀ m1 m2 : Matcher, ∀ v : CValue,
      (m1.or m2).test v = (m1.test v || m2.test v))
    ∧ (∀ i1 i2 : MatcherI, ∀ v : CValue,
      (i1.orRun i2 v).1 = (i1.pred v || i2.pred v))
    ∧ (∀ i1 i2 : MatcherI, ∀ v : CValue, i1.id ≠ i2.id →
      i1.pred v = true → i2.id ∉ (i1.orRun i2 v).2) := by
  refine ⟨fun m1 m2 v => rfl, fun i1 i2 v => ?_, fun i1 i2 v hne hp => ?_⟩
  · unfold MatcherI.orRun
    by_cases h : i1.pred v = true
    · simp [h]
    · simp [h, Bool.eq_false_iff.mpr h]
  · unfold MatcherI.orRun
    simp [hp]
    exact fun contra => hne contra.symm

/-- A sample instrumented matcher whose test always succeeds. -/
def sampleTrue : MatcherI := ⟨0, fun _ => true⟩

/-- A sample instrumented matcher whose test always fails. -/
def sampleFalse : MatcherI := ⟨1, fun _ => false⟩

/-- Witness for C4 at concrete matchers. -/
theorem matcher_or_disjunction_shortcircuit_witness :
    sampleTrue.id ≠ sampleFalse.id
    ∧ sampleTrue.pred (.bool true) = true
    ∧ sampleFalse.id ∉ (sampleTrue.orRun sampleFalse (.bool true)).2 :=
  ⟨by decide, rfl,
    matcher_or_disjunction_shortcircuit.2.2 sampleTrue sampleFalse
      (.bool true) (by decide) rfl⟩

/-- `Account` from the document: address and public key of a created
account (public keys modelled as strings). -/
structure Account where
  address : Address
  publicKey : String
deriving DecidableEq, Repr

/-- `Transaction` from the document: code, authorizers, signers and
arguments. -/
structure Transaction where
  code : String
  authorizers : List Address
  signers : List Account
  arguments : List CValue
deriving DecidableEq, Repr

/-- `Error` from the document: a message indicating why an operation
failed. -/
structure Error where
  message : String
deriving DecidableEq, Repr

/-- The status of a script or transaction result. -/
inductive ResultStatus where
  | succeeded
  | failed
deriving DecidableEq, Repr

/-- `ScriptResult` from the document: status, optional return value and
optional error. -/
structure ScriptResult where
  status : ResultStatus
  returnValue : Option CValue
  error : Option Error
deriving DecidableEq, Repr

/-- `TransactionResult` from the document: status and optional error. -/
structure TransactionResult where
  status : ResultStatus
  error : Option Error
deriving DecidableEq, Repr

/-- Modelled from the spec: the emulator (external to the repository)
turns the outcome of evaluating a script into a `ScriptResult` — a
success carries the return value and no error, a failure carries the
error and no return value. -/
def mkScriptResult : Except Error CValue → ScriptResult
  | .ok v => ⟨.succeeded, some v, none⟩
  | .error e => ⟨.failed, none, some e⟩

/-- Modelled from the spec: the emulator turns the outcome of executing a
transaction into a `TransactionResult`. -/
def mkTxResult : Except Error Unit → TransactionResult
  | .ok _ => ⟨.succeeded, none⟩
  | .error e => ⟨.failed, some e⟩

/-- Exactly one of: succeeded with no error, or failed with a present
error and no return value. -/
def ScriptResult.wellFormed (r : ScriptResult) : Bool :=
  match r.status with
  | .succeeded => r.error.isNone
  | .failed => r.error.isSome && r.returnValue.isNone

/-- Exactly one of: succeeded with no error, or failed with a present
error. -/
def TransactionResult.wellFormed (r : TransactionResult) : Bool :=
  match r.status with
  | .succeeded => r.error.isNone
  | .failed => r.error.isSome

/-- An emitted event: its declared type (as a type identifier) and a
payload. -/
structure Event where
  eventType : String
  payload : CValue
deriving DecidableEq, Repr

/-- One observable call into the backend, recorded so that order-of-calls
properties of the facade can be stated. -/
inductive BackendCall where
  | addTx (tx : Transaction)
  | execNext (executed : Option Transaction)
  | commit (success : Bool)
deriving DecidableEq, Repr

/-- Modelled from the spec: the state of the emulator backend — the
queue of pending-block transactions that were added but not yet
executed, the log of emitted events, and the trace of backend calls
performed so far. -/
structure EmulatorState where
  queue : List Transaction
  eventLog : List Event
  trace : List BackendCall
deriving DecidableEq, Repr

/-- Outcome of a facade operation that may abort: a normal return, an
abort on `commitBlock` failure, or a trap from force-unwrapping the `nil`
returned by `executeNextTransaction`.  The state reached is carried in
every case so that the calls performed can be observed. -/
inductive TxExec (σ : Type) (α : Type) where
  | ok (value : α) (state : σ)
  | commitFailed (state : σ)
  | trapped (state : σ)
deriving DecidableEq, Repr

/-- The state reached by the operation. -/
def TxExec.stateOf : TxExec σ α → σ
  | .ok _ s => s
  | .commitFailed s => s
  | .trapped s => s

/-- The value returned, when the operation returned normally. -/
def TxExec.resultOf : TxExec σ α → Option α
  | .ok a _ => some a
  | .commitFailed _ => none
  | .trapped _ => none

/-- Whether the operation trapped on a force-unwrap of `nil`. -/
def TxExec.isTrapped : TxExec σ α → Bool
  | .trapped _ => true
  | _ => false

/-- Whether the operation returned normally. -/
def TxExec.isOk : TxExec σ α → Bool
  | .ok _ _ => true
  | _ => false

/-- The `BlockchainBackend` interface from the document, restricted to
the operations the verified properties refer to (account creation,
contract deployment, configuration, logs, reset and time travel are
independent of these properties and omitted).  State is threaded
explicitly; `executeScript` performs no block-state mutation, and
`commitBlock` reports success or failure as a boolean. -/
structure BlockchainBackend (σ : Type) where
  executeScript : String → List CValue → σ → ScriptResult
  addTransaction : Transaction → σ → σ
  executeNextTransaction : σ → Option TransactionResult × σ
  commitBlock : σ → Bool × σ
  events : Option String → σ → List Event

/-- `Blockchain` from the document: a facade that forwards to a
`BlockchainBackend`. -/
structure Blockchain (σ : Type) where
  backend : BlockchainBackend σ

/-- `Blockchain.executeScript` from the document. -/
def Blockchain.executeScript (bc : Blockchain σ) (script : String)
    (arguments : List CValue) (s : σ) : ScriptResult :=
  bc.backend.executeScript script arguments s

/-- `Blockchain.addTransaction` from the document. -/
def Blockchain.addTransaction (bc : Blockchain σ) (tx : Transaction) (s : σ) : σ :=
  bc.backend.addTransaction tx s

/-- `Blockchain.executeNextTransaction` from the document: returns the
result of the next transaction, or `none` if no transaction was
scheduled. -/
def Blockchain.executeNextTransaction (bc : Blockchain σ) (s : σ) :
    Option TransactionResult × σ :=
  bc.backend.executeNextTransaction s

/-- `Blockchain.commitBlock` from the document. -/
def Blockchain.commitBlock (bc : Blockchain σ) (s : σ) : Bool × σ :=
  bc.backend.commitBlock s

/-- `Blockchain.executeTransaction` from the document:
`addTransaction(tx)`, then `executeNextTransaction()!` (trapping when it
returns `nil`), then `commitBlock()`. -/
def Blockchain.executeTransaction (bc : Blockchain σ) (tx : Transaction)
    (s : σ) : TxExec σ TransactionResult :=
  let s1 := bc.addTransaction tx s
  match bc.executeNextTransaction s1 with
  | (none, s2) => .trapped s2
  | (some txResult, s2) =>
      match bc.commitBlock s2 with
      | (true, s3) => .ok txResult s3
      | (false, s3) => .commitFailed s3

/-- The composition the spec describes: `addTransaction`, then
`executeNextTransaction` — whose result is the one returned — then
`commitBlock`, in that exact order. -/
def executeTransactionComposed (bc : Blockchain σ) (tx : Transaction)
    (s : σ) : TxExec σ TransactionResult :=
  let afterAdd := bc.addTransaction tx s
  let nextStep := bc.executeNextTransaction afterAdd
  let afterCommit := bc.commitBlock nextStep.2
  match nextStep.1 with
  | none => .trapped nextStep.2
  | some txResult =>
      if afterCommit.1 then .ok txResult afterCommit.2
      else .commitFailed afterCommit.2

/-- The execution loop inside `Blockchain.executeTransactions`: one
`executeNextTransaction()!` per listed transaction, appending each result
(`none` in the first component models the force-unwrap trap). -/
def Blockchain.executeNextLoop (bc : Blockchain σ) :
    List Transaction → σ → List TransactionResult →
    Option (List TransactionResult) × σ
  | [], s, results => (some results, s)
  | _tx :: rest, s, results =>
      match bc.executeNextTransaction s with
      | (none, s2) => (none, s2)
      | (some txResult, s2) =>
          Blockchain.executeNextLoop bc rest s2 (results ++ [txResult])

/-- `Blockchain.executeTransactions` from the document: add every
transaction, then execute one per listed transaction, then commit the
block once. -/
def Blockchain.executeTransactions (bc : Blockchain σ)
    (transactions : List Transaction) (s : σ) :
    TxExec σ (List TransactionResult) :=
  let s1 := transactions.foldl (fun st tx => bc.addTransaction tx st) s
  match bc.executeNextLoop transactions s1 [] with
  | (none, s2) => .trapped s2
  | (some results, s2) =>
      match bc.commitBlock s2 with
      | (true, s3) => .ok results s3
      | (false, s3) => .commitFailed s3

/-- `Blockchain.events` from the document: forwards `nil` as the type
filter. -/
def Blockchain.events (bc : Blockchain σ) (s : σ) : List Event :=
  bc.backend.events none s

/-- `Blockchain.eventsOfType` from the document: forwards the type as
the filter. -/
def Blockchain.eventsOfType (bc : Blockchain σ) (ty : String) (s : σ) :
    List Event :=
  bc.backend.events (some ty) s

/-- Modelled from the spec: the emulator operation `addTransaction` enqueues the
transaction into the pending block without executing it. -/
def emulatorAddTransaction (tx : Transaction) (s : EmulatorState) : EmulatorState :=
  { s with queue := s.queue ++ [tx], trace := s.trace ++ [.addTx tx] }

/-- Modelled from the spec: the emulator operation `executeNextTransaction`
executes the oldest enqueued transaction (FIFO) and returns its result,
or returns `none` when the queue is empty.  `txEval` is the external
outcome of running a transaction against the ledger. -/
def emulatorExecuteNext (txEval : Transaction → Except Error Unit)
    (s : EmulatorState) : Option TransactionResult × EmulatorState :=
  match s.queue with
  | [] => (none, { s with trace := s.trace ++ [.execNext none] })
  | tx :: rest =>
      (some (mkTxResult (txEval tx)),
        { s with queue := rest, trace := s.trace ++ [.execNext (some tx)] })

/-- Modelled from the spec: the emulator operation `commitBlock` succeeds exactly
when every enqueued transaction of the pending block has been executed,
i.e. when the queue is empty. -/
def emulatorCommitBlock (s : EmulatorState) : Bool × EmulatorState :=
  (s.queue.isEmpty, { s with trace := s.trace ++ [.commit s.queue.isEmpty] })

/-- Modelled from the spec: the emulator operation `events` returns all emitted
events in order, filtered by declared type when a type is given. -/
def emulatorEvents (ty : Option String) (s : EmulatorState) : List Event :=
  match ty with
  | none => s.eventLog
  | some t => s.eventLog.filter (fun e => e.eventType == t)

/-- Modelled from the spec: the emulator backend behind
`Test.newEmulatorBlockchain`, assembled from the operations above.
`evalScript` is the external outcome of running a script. -/
def emulatorBackend (evalScript : String → List CValue → Except Error CValue)
    (txEval : Transaction → Except Error Unit) :
    BlockchainBackend EmulatorState :=
  { executeScript := fun code args _ => mkScriptResult (evalScript code args)
    addTransaction := emulatorAddTransaction
    executeNextTransaction := emulatorExecuteNext txEval
    commitBlock := emulatorCommitBlock
    events := emulatorEvents }

/-- A blockchain facade over the emulator backend. -/
def emulatorChain (evalScript : String → List CValue → Except Error CValue)
    (txEval : Transaction → Except Error Unit) : Blockchain EmulatorState :=
  ⟨emulatorBackend evalScript txEval⟩

/-- A degenerate backend whose `executeNextTransaction` always returns
`none`; used to exhibit the force-unwrap trap of the facade. -/
def nilBackend : BlockchainBackend Unit :=
  { executeScript := fun _ _ _ => mkScriptResult (.error ⟨"no scripts"⟩)
    addTransaction := fun _ s => s
    executeNextTransaction := fun s => (none, s)
    commitBlock := fun s => (true, s)
    events := fun _ _ => [] }

/-- A facade over the degenerate backend. -/
def nilChain : Blockchain Unit := ⟨nilBackend⟩

/-- A sample transaction for witnesses. -/
def tx0 : Transaction := ⟨"sample-code", [], [], []⟩

/-- A sample script oracle for witnesses: every script returns true. -/
def evalScript0 : String → List CValue → Except Error CValue :=
  fun _ _ => .ok (.bool true)

/-- A sample transaction oracle for witnesses: every transaction
succeeds. -/
def txEval0 : Transaction → Except Error Unit := fun _ => .ok ()

/-- The initial emulator state: empty pending block, no events, empty
trace. -/
def emptyState : EmulatorState := ⟨[], [], []⟩

/-- Folding the emulator operation `addTransaction` over a list appends the list
to the queue and records one `addTx` call per transaction. -/
theorem emulator_foldl_add (eS : String → List CValue → Except Error CValue)
    (tE : Transaction → Except Error Unit) (txs : List Transaction)
    (s : EmulatorState) :
    txs.foldl (fun st tx => (emulatorChain eS tE).addTransaction tx st) s
      = { queue := s.queue ++ txs, eventLog := s.eventLog,
          trace := s.trace ++ txs.map BackendCall.addTx } := by
  induction txs generalizing s with
  | nil => simp
  | cons t rest ih =>
      simp only [List.foldl_cons, List.map_cons]
      rw [ih]
      simp [Blockchain.addTransaction, emulatorChain, emulatorBackend,
        emulatorAddTransaction]

/-- Running the execution loop over the emulator with enough enqueued
transactions executes a prefix of the queue in FIFO order. -/
theorem emulator_executeNextLoop (eS : String → List CValue → Except Error CValue)
    (tE : Transaction → Except Error Unit) (iter : List Transaction)
    (s : EmulatorState) (acc : List TransactionResult)
    (h : iter.length ≤ s.queue.length) :
    (emulatorChain eS tE).executeNextLoop iter s acc
      = (some (acc ++ (s.queue.take iter.length).map (fun tx => mkTxResult (tE tx))),
         { queue := s.queue.drop iter.length, eventLog := s.eventLog,
           trace := s.trace ++ (s.queue.take iter.length).map
             (fun tx => BackendCall.execNext (some tx)) }) := by
  induction iter generalizing s acc with
  | nil => simp [Blockchain.executeNextLoop]
  | cons t rest ih =>
      match hq : s.queue with
      | [] => simp [hq] at h
      | q :: qs =>
          have hlen : rest.length ≤ qs.length := by
            simpa [hq] using h
          have hstep : (emulatorChain eS tE).executeNextTransaction s
              = (some (mkTxResult (tE q)),
                 { s with
                   queue := qs
                   trace := s.trace ++ [BackendCall.execNext (some q)] }) := by
            simp [Blockchain.executeNextTransaction, emulatorChain,
              emulatorBackend, emulatorExecuteNext, hq]
          rw [Blockchain.executeNextLoop, hstep]
          exact (ih _ _ (by simpa using hlen)).trans (by simp)

/-- On the emulator started from an empty pending block,
`executeTransactions` returns the results of the listed transactions in
order and its trace is: every add, then every execution in enqueue
order, then one successful commit. -/
theorem emulator_executeTransactions_eq
    (eS : String → List CValue → Except Error CValue)
    (tE : Transaction → Except Error Unit) (s : EmulatorState)
    (txs : List Transaction) (h : s.queue = []) :
    (emulatorChain eS tE).executeTransactions txs s
      = .ok (txs.map (fun tx => mkTxResult (tE tx)))
          { queue := []
            eventLog := s.eventLog
            trace := s.trace ++ txs.map BackendCall.addTx
              ++ txs.map (fun tx => BackendCall.execNext (some tx))
              ++ [BackendCall.commit true] } := by
  simp only [Blockchain.executeTransactions]
  rw [emulator_foldl_add]
  rw [emulator_executeNextLoop _ _ _ _ _ (by simp)]
  simp [h, Blockchain.commitBlock, emulatorChain, emulatorBackend,
    emulatorCommitBlock]

/-- Claim C1: `executeTransaction` is exactly the composition
`addTransaction`, then `executeNextTransaction` — whose result is the one
returned — then `commitBlock`, in that order; on the emulator its call
trace is exactly one add, one execution, one commit, in that order. -/
theorem executeTransaction_composition :
    (∀ (σ : Type) (bc : Blockchain σ) (tx : Transaction) (s : σ),
      bc.executeTransaction tx s = executeTransactionComposed bc tx s)
    ∧ (∀ (eS : String → List CValue → Except Error CValue)
        (tE : Transaction → Except Error Unit)
        (tx : Transaction) (s : EmulatorState),
      ((emulatorChain eS tE).executeTransaction tx s).stateOf.trace
        = s.trace ++ [BackendCall.addTx tx,
            BackendCall.execNext (s.queue ++ [tx]).head?,
            BackendCall.commit s.queue.isEmpty]) := by
  constructor
  · intro σ bc tx s
    simp only [Blockchain.executeTransaction, executeTransactionComposed]
    cases hn : bc.executeNextTransaction (bc.addTransaction tx s) with
    | mk r? s2 =>
        cases r? with
        | none => rfl
        | some r =>
            cases hc : bc.commitBlock s2 with
            | mk ok s3 => cases ok <;> simp [hc]
  · intro eS tE tx s
    cases hq : s.queue with
    | nil =>
        simp [hq, Blockchain.executeTransaction, Blockchain.addTransaction,
          Blockchain.executeNextTransaction, Blockchain.commitBlock,
          emulatorChain, emulatorBackend, emulatorAddTransaction,
          emulatorExecuteNext, emulatorCommitBlock, TxExec.stateOf]
    | cons qh qt =>
        have hne : (qt ++ [tx]).isEmpty = false := by cases qt <;> rfl
        simp [hq, hne, Blockchain.executeTransaction, Blockchain.addTransaction,
          Blockchain.executeNextTransaction, Blockchain.commitBlock,
          emulatorChain, emulatorBackend, emulatorAddTransaction,
          emulatorExecuteNext, emulatorCommitBlock, TxExec.stateOf]

/-- Claim C2: on the emulator, `commitBlock` fails exactly when the
pending block still holds a transaction that was added but not yet
executed; with an empty queue it succeeds. -/
theorem commitBlock_fails_iff_pending
    (eS : String → List CValue → Except Error CValue)
    (tE : Transaction → Except Error Unit) (s : EmulatorState) :
    ((emulatorChain eS tE).commitBlock s).1 = false ↔ s.queue ≠ [] := by
  simp [Blockchain.commitBlock, emulatorChain, emulatorBackend,
    emulatorCommitBlock]

/-- Claim C5: starting from an empty pending block, `executeTransactions`
first enqueues every listed transaction, then executes them in enqueue
(FIFO) order, and performs exactly one commit, at the end, after all of
them have been executed. -/
theorem executeTransactions_fifo_single_commit
    (eS : String → List CValue → Except Error CValue)
    (tE : Transaction → Except Error Unit) (s : EmulatorState)
    (txs : List Transaction) (h : s.queue = []) :
    ((emulatorChain eS tE).executeTransactions txs s).isOk = true
    ∧ ((emulatorChain eS tE).executeTransactions txs s).stateOf.trace
      = s.trace ++ txs.map BackendCall.addTx
          ++ txs.map (fun tx => BackendCall.execNext (some tx))
          ++ [BackendCall.commit true] := by
  rw [emulator_executeTransactions_eq eS tE s txs h]
  exact ⟨rfl, by simp [TxExec.stateOf]⟩

/-- Witness for C5: one transaction executed from the initial state. -/
theorem executeTransactions_fifo_single_commit_witness :
    emptyState.queue = []
    ∧ ((emulatorChain evalScript0 txEval0).executeTransactions [tx0] emptyState).isOk = true
    ∧ ((emulatorChain evalScript0 txEval0).executeTransactions [tx0] emptyState).stateOf.trace
      = emptyState.trace ++ [tx0].map BackendCall.addTx
          ++ [tx0].map (fun tx => BackendCall.execNext (some tx))
          ++ [BackendCall.commit true] :=
  ⟨rfl, executeTransactions_fifo_single_commit evalScript0 txEval0
    emptyState [tx0] rfl⟩

/-- Claim C10: starting from an empty pending block, the array returned
by `executeTransactions txs` is exactly the list of results of the listed
transactions: it has the same length as `txs` and its i-th element is the
result of executing the i-th transaction of `txs`. -/
theorem executeTransactions_length_and_elements
    (eS : String → List CValue → Except Error CValue)
    (tE : Transaction → Except Error Unit) (s : EmulatorState)
    (txs : List Transaction) (h : s.queue = []) :
    ((emulatorChain eS tE).executeTransactions txs s).resultOf
      = some (txs.map (fun tx => mkTxResult (tE tx)))
    ∧ ∀ results,
        ((emulatorChain eS tE).executeTransactions txs s).resultOf = some results →
        results.length = txs.length
        ∧ ∀ i : Nat, results[i]? = Option.map (fun tx => mkTxResult (tE tx)) txs[i]? := by
  rw [emulator_executeTransactions_eq eS tE s txs h]
  refine ⟨rfl, fun results hr => ?_⟩
  have hres : results = txs.map (fun tx => mkTxResult (tE tx)) := by
    simpa [TxExec.resultOf] using hr.symm
  subst hres
  exact ⟨by simp, fun i => by simp⟩

/-- Witness for C10: one transaction executed from the initial state. -/
theorem executeTransactions_length_and_elements_witness :
    emptyState.queue = []
    ∧ ((emulatorChain evalScript0 txEval0).executeTransactions [tx0] emptyState).resultOf
      = some ([tx0].map (fun tx => mkTxResult (txEval0 tx)))
    ∧ ∀ results,
        ((emulatorChain evalScript0 txEval0).executeTransactions [tx0] emptyState).resultOf
          = some results →
        results.length = ([tx0] : List Transaction).length
        ∧ ∀ i : Nat, results[i]?
            = Option.map (fun tx => mkTxResult (txEval0 tx)) ([tx0] : List Transaction)[i]? :=
  ⟨rfl, executeTransactions_length_and_elements evalScript0 txEval0
    emptyState [tx0] rfl⟩

/-- Claim C9: on the emulator — where every `addTransaction` enqueues its
transaction — the force-unwraps inside `executeTransaction` and
`executeTransactions` never trap; over a backend whose
`executeNextTransaction` returns `nil` after the add, the facade traps
instead of returning an empty-result sentinel. -/
theorem executeNext_unwrap_safety :
    (∀ (eS : String → List CValue → Except Error CValue)
       (tE : Transaction → Except Error Unit)
       (tx : Transaction) (s : EmulatorState),
      ((emulatorChain eS tE).executeTransaction tx s).isTrapped = false)
    ∧ (∀ (eS : String → List CValue → Except Error CValue)
         (tE : Transaction → Except Error Unit)
         (txs : List Transaction) (s : EmulatorState),
      ((emulatorChain eS tE).executeTransactions txs s).isTrapped = false)
    ∧ (∀ (σ : Type) (bc : Blockchain σ) (tx : Transaction) (s : σ),
      (bc.executeNextTransaction (bc.addTransaction tx s)).1 = none →
      bc.executeTransaction tx s
        = .trapped (bc.executeNextTransaction (bc.addTransaction tx s)).2) := by
  refine ⟨fun eS tE tx s => ?_, fun eS tE txs s => ?_, fun σ bc tx s h => ?_⟩
  · cases hq : s.queue with
    | nil =>
        simp [hq, Blockchain.executeTransaction, Blockchain.addTransaction,
          Blockchain.executeNextTransaction, Blockchain.commitBlock,
          emulatorChain, emulatorBackend, emulatorAddTransaction,
          emulatorExecuteNext, emulatorCommitBlock, TxExec.isTrapped]
    | cons qh qt =>
        simp [hq, Blockchain.executeTransaction, Blockchain.addTransaction,
          Blockchain.executeNextTransaction, Blockchain.commitBlock,
          emulatorChain, emulatorBackend, emulatorAddTransaction,
          emulatorExecuteNext, emulatorCommitBlock, TxExec.isTrapped]
        cases hb : (qt ++ [tx]).isEmpty <;> simp [TxExec.isTrapped]
  · simp only [Blockchain.executeTransactions]
    rw [emulator_foldl_add]
    rw [emulator_executeNextLoop _ _ _ _ _ (by simp)]
    cases hb : ((s.queue ++ txs).drop txs.length).isEmpty <;>
      simp [hb, Blockchain.commitBlock, emulatorChain, emulatorBackend,
        emulatorCommitBlock, TxExec.isTrapped]
  · simp only [Blockchain.executeTransaction]
    cases hn : bc.executeNextTransaction (bc.addTransaction tx s) with
    | mk r? s2 =>
        cases r? with
        | none => simp
        | some r => simp [hn] at h


/-- Witness for C9 at the degenerate backend: `executeNextTransaction`
yields `nil` and the facade traps. -/
theorem executeNext_unwrap_safety_witness :
    (nilChain.executeNextTransaction (nilChain.addTransaction tx0 ())).1 = none
    ∧ Blockchain.executeTransaction nilChain tx0 ()
      = .trapped (nilChain.executeNextTransaction (nilChain.addTransaction tx0 ())).2 :=
  ⟨rfl, executeNext_unwrap_safety.2.2 Unit nilChain tx0 () rfl⟩

/-- Every script result constructed from an execution outcome is
well formed. -/
theorem mkScriptResult_wf (ex : Except Error CValue) :
    (mkScriptResult ex).wellFormed = true := by
  cases ex <;> simp [mkScriptResult, ScriptResult.wellFormed]

/-- Every transaction result constructed from an execution outcome is
well formed. -/
theorem mkTxResult_wf (e : Except Error Unit) :
    (mkTxResult e).wellFormed = true := by
  cases e <;> simp [mkTxResult, TransactionResult.wellFormed]

/-- Claim C6: every result the emulator operations produce has exactly
one of the two shapes — succeeded with no error, or failed with a
present error — and a failed script result has no return value. -/
theorem results_exactly_one_status :
    (∀ ex : Except Error CValue,
      (mkScriptResult ex).wellFormed = true
      ∧ ((mkScriptResult ex).status = .failed → (mkScriptResult ex).returnValue = none)
      ∧ ¬((mkScriptResult ex).status = .succeeded ∧ (mkScriptResult ex).status = .failed))
    ∧ (∀ e : Except Error Unit, (mkTxResult e).wellFormed = true)
    ∧ (∀ (eS : String → List CValue → Except Error CValue)
         (tE : Transaction → Except Error Unit)
         (code : String) (args : List CValue) (s : EmulatorState),
      ((emulatorChain eS tE).executeScript code args s).wellFormed = true)
    ∧ (∀ (eS : String → List CValue → Except Error CValue)
         (tE : Transaction → Except Error Unit)
         (tx : Transaction) (s : EmulatorState),
      Option.all TransactionResult.wellFormed
        ((emulatorChain eS tE).executeTransaction tx s).resultOf = true)
    ∧ (∀ (eS : String → List CValue → Except Error CValue)
         (tE : Transaction → Except Error Unit)
         (txs : List Transaction) (s : EmulatorState),
      Option.all (fun rs => rs.all TransactionResult.wellFormed)
        ((emulatorChain eS tE).executeTransactions txs s).resultOf = true) := by
  refine ⟨fun ex => ⟨mkScriptResult_wf ex, ?_, ?_⟩, mkTxResult_wf,
    fun eS tE code args s => ?_, fun eS tE tx s => ?_, fun eS tE txs s => ?_⟩
  · cases ex <;> simp [mkScriptResult]
  · cases ex <;> simp [mkScriptResult]
  · exact mkScriptResult_wf (eS code args)
  · cases hq : s.queue with
    | nil =>
        simp [hq, Blockchain.executeTransaction, Blockchain.addTransaction,
          Blockchain.executeNextTransaction, Blockchain.commitBlock,
          emulatorChain, emulatorBackend, emulatorAddTransaction,
          emulatorExecuteNext, emulatorCommitBlock, TxExec.resultOf,
          mkTxResult_wf]
    | cons qh qt =>
        have hne : (qt ++ [tx]).isEmpty = false := by cases qt <;> rfl
        simp [hq, hne, Blockchain.executeTransaction, Blockchain.addTransaction,
          Blockchain.executeNextTransaction, Blockchain.commitBlock,
          emulatorChain, emulatorBackend, emulatorAddTransaction,
          emulatorExecuteNext, emulatorCommitBlock, TxExec.resultOf]
  · simp only [Blockchain.executeTransactions]
    rw [emulator_foldl_add]
    rw [emulator_executeNextLoop _ _ _ _ _ (by simp)]
    cases hb : ((s.queue ++ txs).drop txs.length).isEmpty <;>
      simp [hb, Blockchain.commitBlock, emulatorChain, emulatorBackend,
        emulatorCommitBlock, TxExec.resultOf, List.all_eq_true]
    intro r hr
    rcases List.mem_append.mp (List.take_subset _ _ hr) with hmem | hmem <;>
      rcases List.mem_map.mp hmem with ⟨tx2, -, rfl⟩ <;>
        exact mkTxResult_wf _

/-- If two values are equal under the typed Cadence equality then their
declared types agree. -/
theorem cadenceEq_declaredType (v1 v2 : CValue) (h : cadenceEq v1 v2 = true) :
    v1.declaredType = v2.declaredType := by
  cases v1 <;> cases v2 <;> simp_all [cadenceEq, CValue.declaredType]

/-- Claim C7: `assertEqual` fails whenever the declared types differ,
even for numerically equal payloads such as Int64(100) versus
UInt64(100); it fails exactly when the two values are not equal as typed
values. -/
theorem assertEqual_requires_same_type :
    (∀ v1 v2 : CValue, v1.declaredType ≠ v2.declaredType →
      assertEqualFails v1 v2 = true)
    ∧ (∀ v1 v2 : CValue, assertEqualFails v1 v2 = true ↔ cadenceEq v1 v2 = false)
    ∧ assertEqualFails (.int64 100) (.uint64 100) = true
    ∧ CValue.numericValue (.int64 100) = CValue.numericValue (.uint64 100) := by
  refine ⟨fun v1 v2 hne => ?_, fun v1 v2 => ?_, by decide, by decide⟩
  · cases hc : cadenceEq v1 v2 with
    | false => simp [assertEqualFails, hc]
    | true => exact absurd (cadenceEq_declaredType v1 v2 hc) hne
  · simp [assertEqualFails]

/-- Witness for C7 at Int64(100) and UInt64(100). -/
theorem assertEqual_requires_same_type_witness :
    CValue.declaredType (.int64 100) ≠ CValue.declaredType (.uint64 100)
    ∧ assertEqualFails (.int64 100) (.uint64 100) = true :=
  ⟨by decide, assertEqual_requires_same_type.1 (.int64 100) (.uint64 100) (by decide)⟩

/-- Claim C8: `eventsOfType T` is `events()` filtered to the events whose
declared type equals T — hence a subsequence of `events()`, containing
exactly the events of type T, in the same relative order. -/
theorem eventsOfType_filter_of_events
    (eS : String → List CValue → Except Error CValue)
    (tE : Transaction → Except Error Unit) (ty : String) (s : EmulatorState) :
    (emulatorChain eS tE).eventsOfType ty s
      = ((emulatorChain eS tE).events s).filter (fun e => e.eventType == ty)
    ∧ List.Sublist ((emulatorChain eS tE).eventsOfType ty s)
        ((emulatorChain eS tE).events s)
    ∧ ∀ e, e ∈ (emulatorChain eS tE).eventsOfType ty s
        ↔ (e ∈ (emulatorChain eS tE).events s ∧ e.eventType = ty) := by
  have hfil : (emulatorChain eS tE).eventsOfType ty s
      = ((emulatorChain eS tE).events s).filter (fun e => e.eventType == ty) := by
    simp [Blockchain.eventsOfType, Blockchain.events, emulatorChain,
      emulatorBackend, emulatorEvents]
  refine ⟨hfil, ?_, fun e => ?_⟩
  · rw [hfil]
    exact List.filter_sublist _
  · rw [hfil]
    simp [List.mem_filter]

end CadenceTest
